import Mathlib

/-!
Verification of the puzzle/hint engine of the `hackwithme` portfolio lab.

We give a shallow embedding of the core state: the per-origin key-value
store (`localStorage`) is an association list of string keys to string
values, and each operation of `src/lib/puzzles.ts`, the terminal command
handler of `Terminal.tsx`, and the hint-unlock machinery of
`PuzzleEngine.tsx` is translated into a pure Lean function over that
store.  JavaScript string primitives used by the code
(`split`, `trim`, `toLowerCase`, `join`) are re-implemented structurally
on character lists so that every definition evaluates inside the kernel.
`JSON.parse` / `JSON.stringify` are modelled by an executable
encoder/parser pair for the two shapes the code persists: arrays of
strings (the badge ledger) and objects mapping strings to natural
numbers (the hint-usage map); a parse failure models the thrown
`SyntaxError`.  Presentational fields of the puzzle registry (titles,
descriptions, badge labels) are omitted: no modelled operation reads
them.  Storage is modelled as available; the storage-unavailable catch
branches are therefore never taken.
-/

deriving instance DecidableEq for Except

namespace HackLab

/-- The persistent per-origin key-value store (`localStorage`),
modelled as an association list; earlier entries shadow later ones. -/
abbrev Store := List (String × String)

/-- `localStorage.getItem`. -/
def storeGet : Store → String → Option String
  | [], _ => none
  | (k, v) :: rest, key => if k = key then some v else storeGet rest key

/-- `localStorage.setItem`. -/
def storeSet : Store → String → String → Store
  | [], key, val => [(key, val)]
  | (k, v) :: rest, key, val =>
    if k = key then (key, val) :: rest else (k, v) :: storeSet rest key val

/-- JavaScript `String.prototype.split` with a one-character separator,
on character lists. -/
def splitChars (sep : Char) : List Char → List (List Char)
  | [] => [[]]
  | c :: rest =>
    let r := splitChars sep rest
    if c = sep then [] :: r
    else
      match r with
      | [] => [[c]]
      | x :: xs => (c :: x) :: xs

/-- JavaScript `split` on strings. -/
def jsSplit (sep : Char) (s : String) : List String :=
  (splitChars sep s.data).map String.mk

/-- JavaScript `String.prototype.trim` (the inputs of interest contain
only ASCII whitespace). -/
def jsTrim (s : String) : String :=
  ⟨((s.data.dropWhile Char.isWhitespace).reverse.dropWhile
      Char.isWhitespace).reverse⟩

/-- JavaScript `String.prototype.toLowerCase` (ASCII range). -/
def jsToLower (s : String) : String :=
  ⟨s.data.map Char.toLower⟩

/-- JavaScript `String.prototype.includes` with a one-character needle. -/
def jsIncludes (s : String) (c : Char) : Bool :=
  s.data.contains c

/-- JavaScript `Array.prototype.join`. -/
def joinSep (sep : String) : List String → String
  | [] => ""
  | [x] => x
  | x :: xs => x ++ sep ++ joinSep sep xs

/-! ### JSON codec for string arrays (the badge ledger)

`JSON.stringify` of an array of strings that need no escaping, and a
parser for exactly that grammar.  On every value the code actually
writes the parser agrees with `JSON.parse`; on the malformed inputs we
exhibit, both fail. -/

/-- Encoding of the items of a string array after the first item's
closing quote. -/
def encRest : List (List Char) → List Char
  | [] => [']']
  | s :: rest => ',' :: '"' :: (s ++ '"' :: encRest rest)

/-- `JSON.stringify` of an array of escape-free strings, on characters. -/
def encodeArrChars : List (List Char) → List Char
  | [] => ['[', ']']
  | s :: rest => '[' :: '"' :: (s ++ '"' :: encRest rest)

/-- Parser modes for the string-array grammar: after `[`, inside a
string, after a closing quote, after a comma. -/
inductive JMode
  | first
  | str
  | sep
  | next
deriving DecidableEq

/-- State machine of the string-array parser; structurally recursive on
the input so that it evaluates in the kernel. -/
def jrun : JMode → List Char → List (List Char) → List Char →
    Option (List (List Char))
  | _, _, _, [] => none
  | m, cur, items, c :: rest =>
    match m with
    | .first =>
      if c = ']' then (if rest.isEmpty then some [] else none)
      else if c = '"' then jrun .str [] [] rest
      else none
    | .str =>
      if c = '"' then jrun .sep [] (items ++ [cur]) rest
      else jrun .str (cur ++ [c]) items rest
    | .sep =>
      if c = ']' then (if rest.isEmpty then some items else none)
      else if c = ',' then jrun .next [] items rest
      else none
    | .next =>
      if c = '"' then jrun .str [] items rest
      else none

/-- `JSON.parse` restricted to arrays of escape-free strings. -/
def parseArrChars (s : List Char) : Option (List (List Char)) :=
  match s with
  | '[' :: rest => jrun .first [] [] rest
  | _ => none

/-- Encode a badge ledger as its persisted JSON text. -/
def encodeBadges (l : List String) : String :=
  ⟨encodeArrChars (l.map String.data)⟩

/-- Parse a persisted badge ledger; `none` models a `JSON.parse`
exception. -/
def parseBadges (s : String) : Option (List String) :=
  (parseArrChars s.data).map (List.map String.mk)

/-- A string that `JSON.stringify` emits verbatim between quotes:
no quote, no backslash, no control character. -/
def jsonSafe (s : String) : Bool :=
  s.data.all fun c => c != '"' && c != '\\' && decide (32 ≤ c.toNat)

/-! ### JSON codec for objects of natural numbers (the hint-usage map) -/

/-- Parser modes for objects whose values are natural numbers: after
the opening brace, inside a key string, expecting the colon, expecting
the first digit, inside the digits. -/
inductive OMode
  | first
  | key
  | colon
  | num0
  | num
deriving DecidableEq

/-- State machine of the nat-object parser, structurally recursive on
the input. -/
def orun : OMode → List Char → Nat → List (String × Nat) → List Char →
    Option (List (String × Nat))
  | _, _, _, _, [] => none
  | m, cur, acc, items, c :: rest =>
    match m with
    | .first =>
      if c = '\x7d' then (if rest.isEmpty then some [] else none)
      else if c = '"' then orun .key [] 0 [] rest
      else none
    | .key =>
      if c = '"' then orun .colon cur 0 items rest
      else orun .key (cur ++ [c]) 0 items rest
    | .colon =>
      if c = ':' then orun .num0 cur 0 items rest
      else none
    | .num0 =>
      if c.isDigit then orun .num cur (c.toNat - 48) items rest
      else none
    | .num =>
      if c.isDigit then orun .num cur (acc * 10 + (c.toNat - 48)) items rest
      else if c = '\x7d' then
        (if rest.isEmpty then some (items ++ [(⟨cur⟩, acc)]) else none)
      else if c = ',' then
        match rest with
        | '"' :: rest2 => orun .key [] 0 (items ++ [(⟨cur⟩, acc)]) rest2
        | _ => none
      else none

/-- `JSON.parse` restricted to objects mapping strings to natural
numbers, the shape `puzzle_hint_usage` is persisted in. -/
def parseHintObj (s : String) : Option (List (String × Nat)) :=
  match s.data with
  | '\x7b' :: rest => orun .first [] 0 [] rest
  | _ => none

/-! ### The puzzle registry (`src/lib/puzzles.ts`)

Presentational fields (`title`, `short`, `description`, `badge`,
hint texts' contents beyond their count) are carried only where an
operation reads them; none of the modelled operations does, so the
registry keeps the behavioural fields. -/

/-- One hint tier (`HintTier` in the source; the optional `cost` field
is never read). -/
structure HintTier where
  text : String
  locked : Bool
deriving DecidableEq

/-- The `type` field of a puzzle. -/
inductive PType
  | terminal
  | localstorage
  | route
deriving DecidableEq

/-- The `difficulty` field of a puzzle. -/
inductive Difficulty
  | easy
  | medium
  | hard
  | secret
deriving DecidableEq

/-- A puzzle definition (behavioural fields of the source's `Puzzle`). -/
structure Puzzle where
  id : String
  type : PType
  difficulty : Difficulty
  solutions : List String
  lower : Bool
  hints : List HintTier
  dependsOn : List String
  hidden : Bool
deriving DecidableEq

/-- The locked hint placeholder used by every registry entry. -/
def lockedHint : HintTier :=
  { text := "Hint locked 🔒 — perform a task to unlock.", locked := true }

/-- The immutable puzzle registry, entry for entry as in
`src/lib/puzzles.ts`. -/
def puzzles : List Puzzle :=
  [ { id := "scanPuzzle"
    , type := .terminal
    , difficulty := .easy
    , solutions := ["ACCESS_GRANTED"]
    , lower := false
    , hints := [lockedHint, lockedHint]
    , dependsOn := []
    , hidden := false }
  , { id := "probePuzzle"
    , type := .terminal
    , difficulty := .medium
    , solutions := ["ROOT_SIGNAL_FOUND"]
    , lower := false
    , hints := [lockedHint, lockedHint]
    , dependsOn := ["scanPuzzle"]
    , hidden := false }
  , { id := "localKeyPuzzle"
    , type := .localstorage
    , difficulty := .hard
    , solutions := ["DECRYPTED_KEY=TRUE"]
    , lower := false
    , hints := [lockedHint, lockedHint]
    , dependsOn := []
    , hidden := false }
  , { id := "neoEaster"
    , type := .terminal
    , difficulty := .secret
    , solutions := ["THERE_IS_NO_SPOON"]
    , lower := false
    , hints := [lockedHint, lockedHint]
    , dependsOn := ["probePuzzle", "localKeyPuzzle"]
    , hidden := true } ]

/-- `LS_KEYS.badges`. -/
def badgesKey : String := "portfolio_badges"

/-- `LS_KEYS.solved(id)`. -/
def solvedKey (id : String) : String := "puzzle_solved_" ++ id

/-- `LS_KEYS.hintUsage`. -/
def hintUsageKey : String := "puzzle_hint_usage"

/-- `getPuzzles(includeHidden)`. -/
def getPuzzles (includeHidden : Bool) : List Puzzle :=
  if includeHidden then puzzles else puzzles.filter fun p => !p.hidden

/-- `findPuzzle(id)`. -/
def findPuzzle (id : String) : Option Puzzle :=
  puzzles.find? fun p => p.id == id

/-- `isSolved(id)` against a given store. -/
def isSolved (st : Store) (id : String) : Bool :=
  storeGet st (solvedKey id) == some "1"

/-- The badge ledger the code obtains from
`raw ? JSON.parse(raw) : []`; `none` models the thrown parse error. -/
def badgesOf (st : Store) : Option (List String) :=
  match storeGet st badgesKey with
  | none => some []
  | some raw => if raw = "" then some [] else parseBadges raw

/-- `markSolved(id)`: set the solved flag, then append the puzzle id to
the ledger unless present.  A ledger parse failure is caught by the
surrounding `try` after the flag write, leaving the ledger untouched. -/
def markSolved (st : Store) (id : String) : Store :=
  let st1 := storeSet st (solvedKey id) "1"
  match badgesOf st1 with
  | none => st1
  | some arr =>
    if id ∈ arr then st1
    else storeSet st1 badgesKey (encodeBadges (arr ++ [id]))

/-- Result record of `checkSolution`. -/
structure CheckResult where
  ok : Bool
  message : String
deriving DecidableEq

/-- `checkSolution(id, attempt)`: the returned result together with the
store after its side effects. -/
def checkSolution (st : Store) (id : String) (attempt : String) :
    CheckResult × Store :=
  match findPuzzle id with
  | none => ({ ok := false, message := "Puzzle not found." }, st)
  | some p =>
    let attemptNormalized := if p.lower then jsToLower attempt else attempt
    let matched := p.solutions.any fun s =>
      if p.lower then attemptNormalized == jsToLower s
      else attemptNormalized == s
    if matched then
      ({ ok := true, message := "✅ Access Granted" }, markSolved st id)
    else if p.type = .localstorage && jsIncludes attempt '=' then
      let parts := (jsSplit '=' attempt).map jsTrim
      let key := parts.getD 0 ""
      let val := parts.getD 1 ""
      let pair := key ++ "=" ++ val
      if p.solutions.contains pair then
        ({ ok := true, message := "🗝️ Correct — key stored in memory!" },
          markSolved (storeSet st key val) id)
      else
        ({ ok := false, message := "❌ Access Denied — try another command." },
          st)
    else
      ({ ok := false, message := "❌ Access Denied — try another command." },
        st)

/-- `getHints(id)`. -/
def getHints (id : String) : List HintTier :=
  ((findPuzzle id).map Puzzle.hints).getD []

/-! ### Hint usage and the puzzle engine (`PuzzleEngine.tsx`) -/

/-- The in-memory `HintUsage` record, as an association list. -/
abbrev HintUsage := List (String × Nat)

/-- `prev[id] ?? 0`. -/
def lookupUsage (m : HintUsage) (id : String) : Nat :=
  (m.lookup id).getD 0

/-- The object-spread update `{...prev, [id]: v}`. -/
def setUsage : HintUsage → String → Nat → HintUsage
  | [], id, v => [(id, v)]
  | (k, x) :: rest, id, v =>
    if k = id then (id, v) :: rest else (k, x) :: setUsage rest id v

/-- `readHintUsage()`: parse the persisted map, with `{}` on absence or
parse failure (the `try`/`catch`). -/
def readHintUsage (st : Store) : HintUsage :=
  match storeGet st hintUsageKey with
  | none => []
  | some raw => (parseHintObj raw).getD []

/-- `revealHint(level)` of `src/components/PuzzleEngine.tsx`: guarded
only by `1 ≤ level ≤ hints.length`, then raises the usage to
`max(current, level)`. -/
def revealHint (selected : Option Puzzle) (usage : HintUsage)
    (level : Nat) : HintUsage :=
  match selected with
  | none => usage
  | some p =>
    let hints := getHints p.id
    if level < 1 || hints.length < level then usage
    else setUsage usage p.id (max (lookupUsage usage p.id) level)

/-- The state-update core of `confirmUnlockHint` (the modal edition of
the engine): `usage[id] := max(usage[id] ?? 0, tier)`. -/
def confirmUnlock (usage : HintUsage) (id : String) (tier : Nat) :
    HintUsage :=
  setUsage usage id (max (lookupUsage usage id) tier)

/-- A `solvedState` record, as an association list; absent ids read as
the falsy `undefined`. -/
abbrev SolvedMap := List (String × Bool)

/-- `solvedState[d]` with `undefined` read as `false`. -/
def lookupSolved (m : SolvedMap) (id : String) : Bool :=
  (m.lookup id).getD false

/-- The solved map the load effect installs: every puzzle (hidden
included, the engine calls `getPuzzles(true)`) mapped to its persisted
flag.  The reveal effect's first run precedes this state update and
observes the initial empty map. -/
def initialSolvedMap (st : Store) : SolvedMap :=
  (getPuzzles true).map fun p => (p.id, isSolved st p.id)

/-- The `allSolved` reveal condition: `Object.values(solvedState)`
all truthy (vacuously true on the empty map, as `[].every` is in
JavaScript). -/
def computeAllSolved (m : SolvedMap) : Bool :=
  (m.map Prod.snd).all id

/-- One run of the reveal effect, `if (allSolved) setShowHidden(true)`,
over the `solvedState` it observes; the flag is never cleared. -/
def revealEffectStep (showHidden : Bool) (m : SolvedMap) : Bool :=
  if computeAllSolved m then true else showHidden

/-- The reveal flag once the mount effects have settled: the effect
first fires over the initial empty `solvedState` (the load effect's
update is not yet applied on the first run) and then re-runs over the
loaded map. -/
def showHiddenAfterMount (st : Store) : Bool :=
  revealEffectStep (revealEffectStep false []) (initialSolvedMap st)

/-- The listing filter of `visiblePuzzles`: not hidden, or the reveal
flag, or every dependency solved. -/
def visibleFilter (showHidden : Bool) (m : SolvedMap) (p : Puzzle) :
    Bool :=
  if !p.hidden then true
  else if showHidden then true
  else (p.dependsOn).all fun d => lookupSolved m d

/-- `trySolve()` on a selected puzzle: run the checker on the trimmed
attempt; on success record the solve and schedule `showHidden := true`.
Returns the checker result, the new store, solved map and reveal flag. -/
def trySolve (st : Store) (m : SolvedMap) (showHidden : Bool)
    (selected : Puzzle) (attempt : String) :
    CheckResult × Store × SolvedMap × Bool :=
  let r := checkSolution st selected.id (jsTrim attempt)
  if r.1.ok then
    (r.1, r.2, setSolved m selected.id, true)
  else
    (r.1, r.2, m, showHidden)
where
  /-- The spread update `{...s, [id]: true}`. -/
  setSolved : SolvedMap → String → SolvedMap
    | [], id => [(id, true)]
    | (k, x) :: rest, id =>
      if k = id then (id, true) :: rest else (k, x) :: setSolved rest id

/-! ### The timed (`ad`) unlock ritual

`triggerUnlock` in `ad` mode starts a 1-second interval over a local
`time` variable initialised to 5.  Each tick decrements `time` and runs
a functional state update: a closed modal clears the interval and
changes nothing; a countdown at zero clears the interval, grants via
`confirmUnlockHint` and closes the modal; otherwise the countdown field
is refreshed.  Closing the modal is `setUnlockModal({show: false,
tier: null, mode: "confirm"})`. -/

/-- The transient state of one timed unlock ritual together with the
usage map it may eventually write. -/
structure AdState where
  modalShow : Bool
  tier : Option Nat
  countdown : Nat
  time : Nat
  timerActive : Bool
  selected : Option String
  usage : HintUsage
deriving DecidableEq

/-- Starting a timed ritual for a tier of the selected puzzle. -/
def adStart (sel : Option String) (tier : Nat) (usage : HintUsage) :
    AdState :=
  { modalShow := true, tier := some tier, countdown := 5, time := 5,
    timerActive := true, selected := sel, usage := usage }

/-- `confirmUnlockHint` as reached from the timed ritual: grant
`max(current, tier)` when a puzzle is selected and a tier is pending,
then clear the modal. -/
def confirmAd (s : AdState) : AdState :=
  match s.selected, s.tier with
  | some pid, some tier =>
    { s with
      usage := setUsage s.usage pid (max (lookupUsage s.usage pid) tier),
      modalShow := false,
      tier := none }
  | _, _ => s

/-- One firing of the interval callback. -/
def adTick (s : AdState) : AdState :=
  if s.timerActive = false then s
  else
    let time1 := s.time - 1
    if s.modalShow = false then { s with time := time1, timerActive := false }
    else if time1 = 0 then
      let s1 := confirmAd { s with time := time1 }
      { s1 with timerActive := false, modalShow := false }
    else { s with time := time1, countdown := time1 }

/-- Cancelling the ritual by closing its modal. -/
def adCancel (s : AdState) : AdState :=
  { s with modalShow := false, tier := none }

/-! ### The terminal command handler (`Terminal.tsx`, scan/probe
edition)

`handleCommand` is modelled as a pure function from the store, the
visible log and the submitted line to either a result record or a
thrown exception (the unguarded `JSON.parse` of the badge branch).
The result records the new store, the new log, the `terminal-command`
events dispatched at the end of the handler, the `onSolved` /
`onPuzzleTrigger` callback invocations and the checker calls made. -/

/-- The payload of a `terminal-command` event. -/
structure TermEvent where
  command : String
  timestamp : Nat
deriving DecidableEq

/-- Everything observable about one run of `handleCommand`. -/
structure TermResult where
  store : Store
  lines : List String
  events : List TermEvent
  solvedCalls : List String
  triggerCalls : List String
  checkerCalls : List (String × String)
deriving DecidableEq

/-- The help text printed by the `help` command. -/
def helpText : String :=
  joinSep "\n"
    [ "Available commands:"
    , "  help               → Show available commands"
    , "  scan               → Run a system scan"
    , "  probe              → Probe deeper after scan"
    , "  awakening          → Unlock the final secret"
    , "  badge list         → View collected badges"
    , "  clear              → Clear terminal logs" ]

/-- JavaScript array indexing `args[i]`, with the `undefined` of an
out-of-range index behaving as the empty string does in the
comparisons the handler makes. -/
def argN : List String → Nat → String
  | [], _ => ""
  | x :: _, 0 => x
  | _ :: xs, n + 1 => argN xs n

/-- The branches of `handleCommand` that `return` before the final
`window.dispatchEvent`: an already-solved `scan`, a gated or
already-solved `probe`, a gated or already-solved `awakening`. -/
def earlyReturn (st : Store) (command : String) : Bool :=
  let cmd := jsToLower (argN (jsSplit ' ' command) 0)
  (cmd == "scan" && isSolved st "scanPuzzle") ||
  (cmd == "probe" &&
    (!isSolved st "scanPuzzle" || isSolved st "probePuzzle")) ||
  (cmd == "awakening" &&
    (!isSolved st "probePuzzle" || !isSolved st "localKeyPuzzle" ||
      isSolved st "neoEaster"))

/-- `handleCommand(command)` at dispatch time `now`.  The `.error`
branch models the exception thrown by `JSON.parse` in the `badge list`
branch, the only unguarded parse. -/
def handleCommand (st : Store) (log : List String) (command : String)
    (now : Nat) : Except String TermResult :=
  let args := jsSplit ' ' command
  let cmd := jsToLower (argN args 0)
  let ev : List TermEvent := [{ command := command, timestamp := now }]
  if cmd = "help" then
    .ok { store := st, lines := log ++ [helpText], events := ev,
          solvedCalls := [], triggerCalls := [], checkerCalls := [] }
  else if cmd = "clear" then
    .ok { store := st, lines := [], events := ev,
          solvedCalls := [], triggerCalls := [], checkerCalls := [] }
  else if cmd = "badge" then
    if argN args 1 = "list" then
      let raw := (storeGet st badgesKey).getD ""
      let rawOr := if raw = "" then "[]" else raw
      match parseBadges rawOr with
      | none => .error "SyntaxError: JSON.parse"
      | some badges =>
        .ok { store := st,
              lines := log ++
                [if badges.isEmpty then "No badges yet."
                 else joinSep ", " badges],
              events := ev, solvedCalls := [], triggerCalls := [],
              checkerCalls := [] }
    else
      .ok { store := st, lines := log ++ ["Usage: badge list"],
            events := ev, solvedCalls := [], triggerCalls := [],
            checkerCalls := [] }
  else if cmd = "scan" then
    if isSolved st "scanPuzzle" then
      .ok { store := st, lines := log ++ ["🔁 System already scanned."],
            events := [], solvedCalls := [], triggerCalls := [],
            checkerCalls := [] }
    else
      let r := checkSolution st "scanPuzzle" "ACCESS_GRANTED"
      let baseLines := log ++
        ["Running system scan...",
         "Signal fragments detected: [A]CCESS_[G]RANTED"]
      if r.1.ok then
        .ok { store := markSolved r.2 "scanPuzzle",
              lines := baseLines ++ ["✅ Access granted. Fragment decrypted."],
              events := ev, solvedCalls := ["scanPuzzle"],
              triggerCalls := ["scanPuzzle"],
              checkerCalls := [("scanPuzzle", "ACCESS_GRANTED")] }
      else
        .ok { store := r.2,
              lines := baseLines ++ ["❌ Scan failed. Try again."],
              events := ev, solvedCalls := [], triggerCalls := [],
              checkerCalls := [("scanPuzzle", "ACCESS_GRANTED")] }
  else if cmd = "probe" then
    if !isSolved st "scanPuzzle" then
      .ok { store := st, lines := log ++ ["⚠️ Run \x27scan\x27 first."],
            events := [], solvedCalls := [], triggerCalls := [],
            checkerCalls := [] }
    else if isSolved st "probePuzzle" then
      .ok { store := st,
            lines := log ++ ["🧩 Data probe already complete."],
            events := [], solvedCalls := [], triggerCalls := [],
            checkerCalls := [] }
    else
      let r := checkSolution st "probePuzzle" "ROOT_SIGNAL_FOUND"
      let baseLines := log ++
        ["Initiating deep data probe...",
         "Found residual echo: ROOT_SIGNAL_FOUND"]
      if r.1.ok then
        .ok { store := markSolved r.2 "probePuzzle",
              lines := baseLines ++ ["✅ Signal reconstruction successful."],
              events := ev, solvedCalls := ["probePuzzle"],
              triggerCalls := ["probePuzzle"],
              checkerCalls := [("probePuzzle", "ROOT_SIGNAL_FOUND")] }
      else
        .ok { store := r.2,
              lines := baseLines ++ ["❌ Signal corrupted."],
              events := ev, solvedCalls := [], triggerCalls := [],
              checkerCalls := [("probePuzzle", "ROOT_SIGNAL_FOUND")] }
  else if cmd = "awakening" then
    if !isSolved st "probePuzzle" || !isSolved st "localKeyPuzzle" then
      .ok { store := st,
            lines := log ++ ["⚠️ System not ready. Complete prior sequences."],
            events := [], solvedCalls := [], triggerCalls := [],
            checkerCalls := [] }
    else if isSolved st "neoEaster" then
      .ok { store := st,
            lines := log ++ ["🧠 You\x27ve already awakened, The One."],
            events := [], solvedCalls := [], triggerCalls := [],
            checkerCalls := [] }
    else
      let r := checkSolution st "neoEaster" "THERE_IS_NO_SPOON"
      let baseLines := log ++
        ["⚡ Initiating awakening protocol...",
         "Transcending local space..."]
      if r.1.ok then
        .ok { store := markSolved r.2 "neoEaster",
              lines := baseLines ++
                ["🧠 You are The One. Reality bends to your will."],
              events := ev, solvedCalls := ["neoEaster"],
              triggerCalls := ["neoEaster"],
              checkerCalls := [("neoEaster", "THERE_IS_NO_SPOON")] }
      else
        .ok { store := r.2,
              lines := baseLines ++ ["❌ Awakening failed. Try again."],
              events := ev, solvedCalls := [], triggerCalls := [],
              checkerCalls := [("neoEaster", "THERE_IS_NO_SPOON")] }
  else
    .ok { store := st, lines := log ++ ["Unknown command: " ++ cmd],
          events := ev, solvedCalls := [], triggerCalls := [],
          checkerCalls := [] }

/-! ### Sequences of engine operations (for the monotonicity claim) -/

/-- One user-level operation of the engine. -/
inductive EngineOp
  | reveal (pid : String) (level : Nat)
  | unlock (pid : String) (tier : Nat)
  | mark (id : String)
  | check (id : String) (attempt : String)

/-- The joint state the operations act on. -/
structure EngineState where
  store : Store
  usage : HintUsage

/-- Apply one operation. -/
def applyOp (s : EngineState) : EngineOp → EngineState
  | .reveal pid level =>
    { s with usage := revealHint (findPuzzle pid) s.usage level }
  | .unlock pid tier => { s with usage := confirmUnlock s.usage pid tier }
  | .mark id => { s with store := markSolved s.store id }
  | .check id attempt => { s with store := (checkSolution s.store id attempt).2 }

/-- Apply a sequence of operations left to right. -/
def applyOps (s : EngineState) (ops : List EngineOp) : EngineState :=
  ops.foldl applyOp s

/-- `n` firings of the ad-ritual interval. -/
def ticks : Nat → AdState → AdState
  | 0, s => s
  | n + 1, s => ticks n (adTick s)

/-- `n` consecutive calls of `markSolved` on the same id. -/
def markSolvedN (st : Store) (id : String) : Nat → Store
  | 0 => st
  | n + 1 => markSolved (markSolvedN st id n) id

/-! ## Theorems

Helper lemmas about the store, strings and the JSON codec come first,
then one theorem (with witness or counterexample where required) per
specification claim. -/

/-- Reading the key just written. -/
theorem storeGet_set_self (st : Store) (k v : String) :
    storeGet (storeSet st k v) k = some v := by
  induction st with
  | nil => simp [storeSet, storeGet]
  | cons kv rest ih =>
    obtain ⟨k1, v1⟩ := kv
    by_cases h : k1 = k <;> simp [storeSet, storeGet, h, ih]

/-- Reading a key other than the one written. -/
theorem storeGet_set_ne (st : Store) (k v q : String) (h : q ≠ k) :
    storeGet (storeSet st k v) q = storeGet st q := by
  induction st with
  | nil => simp [storeSet, storeGet, Ne.symm h]
  | cons kv rest ih =>
    obtain ⟨k1, v1⟩ := kv
    by_cases h1 : k1 = k
    · subst h1
      simp [storeSet, storeGet, Ne.symm h]
    · by_cases h2 : k1 = q <;> simp [storeSet, storeGet, h1, h2, ih, h]

/-- Overwriting a key twice keeps only the second write. -/
theorem storeSet_set_self (st : Store) (k v w : String) :
    storeSet (storeSet st k v) k w = storeSet st k w := by
  induction st with
  | nil => simp [storeSet]
  | cons kv rest ih =>
    obtain ⟨k1, v1⟩ := kv
    by_cases h : k1 = k <;> simp [storeSet, h, ih]

/-- Writing the value a key already holds changes nothing. -/
theorem storeSet_of_get_eq (st : Store) (k v : String)
    (h : storeGet st k = some v) : storeSet st k v = st := by
  induction st with
  | nil => simp [storeGet] at h
  | cons kv rest ih =>
    obtain ⟨k1, v1⟩ := kv
    by_cases h1 : k1 = k
    · subst h1
      simp [storeGet] at h
      simp [storeSet, h]
    · simp [storeGet, h1] at h
      simp [storeSet, h1, ih h]

/-- Strings with equal character data are equal. -/
theorem string_data_inj {a b : String} (h : a.data = b.data) : a = b :=
  congrArg String.mk h

/-- Character data of an appended string. -/
theorem data_append (a b : String) : (a ++ b).data = a.data ++ b.data := by
  cases a
  cases b
  rfl

/-- Rebuilding strings from their data is the identity on lists. -/
theorem map_mk_data (l : List String) :
    l.map (String.mk ∘ String.data) = l := by
  induction l with
  | nil => rfl
  | cons x xs ih =>
    simp only [List.map_cons, Function.comp_apply, ih]

/-- A solved-flag key never collides with the badge-ledger key. -/
theorem solvedKey_ne_badgesKey (id : String) : solvedKey id ≠ badgesKey := by
  intro h
  have h1 : (solvedKey id).data = badgesKey.data := congrArg String.data h
  rw [solvedKey, data_append] at h1
  rw [show ("puzzle_solved_" : String).data =
    ['p', 'u', 'z', 'z', 'l', 'e', '_', 's', 'o', 'l', 'v', 'e', 'd', '_']
    from by decide] at h1
  rw [show badgesKey.data =
    ['p', 'o', 'r', 't', 'f', 'o', 'l', 'i', 'o', '_', 'b', 'a', 'd', 'g',
     'e', 's'] from by decide] at h1
  simp at h1

/-- Solved-flag keys of distinct puzzles are distinct. -/
theorem solvedKey_inj {a b : String} (h : solvedKey a = solvedKey b) :
    a = b := by
  have h1 := congrArg String.data h
  rw [solvedKey, solvedKey, data_append, data_append] at h1
  exact string_data_inj (List.append_cancel_left h1)

/-- The key written by the key-value branch for the registry's only
`localstorage` puzzle is never a solved-flag key. -/
theorem kv_key_ne_solvedKey {key val : String} (q : String)
    (h : key ++ "=" ++ val = "DECRYPTED_KEY=TRUE") : key ≠ solvedKey q := by
  intro hk
  subst hk
  have h1 := congrArg String.data h
  rw [data_append, data_append, solvedKey, data_append] at h1
  rw [show ("puzzle_solved_" : String).data =
    ['p', 'u', 'z', 'z', 'l', 'e', '_', 's', 'o', 'l', 'v', 'e', 'd', '_']
    from by decide] at h1
  rw [show ("DECRYPTED_KEY=TRUE" : String).data =
    ['D', 'E', 'C', 'R', 'Y', 'P', 'T', 'E', 'D', '_', 'K', 'E', 'Y', '=',
     'T', 'R', 'U', 'E'] from by decide] at h1
  simp at h1

/-- Running the string parser over a quote-free item consumes it up to
its closing quote. -/
theorem jrun_str_append (s : List Char) (cur : List Char)
    (items : List (List Char)) (r : List Char) (h : '"' ∉ s) :
    jrun .str cur items (s ++ '"' :: r) =
      jrun .sep [] (items ++ [cur ++ s]) r := by
  revert h
  induction s generalizing cur with
  | nil => intro h; simp [jrun]
  | cons c s ih =>
    intro h
    have hc : ¬(c = '"') := fun hc => h (hc ▸ List.mem_cons_self c s)
    have hs : '"' ∉ s := fun hm => h (List.mem_cons_of_mem _ hm)
    simp only [List.cons_append, jrun]
    rw [if_neg hc]
    simpa using ih (cur ++ [c]) hs

/-- The parser consumes an encoded tail of quote-free items. -/
theorem jrun_sep_encRest (l : List (List Char))
    (items : List (List Char)) (h : ∀ x ∈ l, '"' ∉ x) :
    jrun .sep [] items (encRest l) = some (items ++ l) := by
  induction l generalizing items with
  | nil => simp [encRest, jrun]
  | cons s rest ih =>
    simp only [encRest]
    rw [show jrun .sep [] items (',' :: '"' :: (s ++ '"' :: encRest rest)) =
      jrun .str [] items (s ++ '"' :: encRest rest) from by simp [jrun]]
    rw [jrun_str_append s [] items (encRest rest)
      (h s (List.mem_cons_self s rest))]
    rw [List.nil_append,
      ih (items ++ [s]) fun x hx => h x (List.mem_cons_of_mem s hx)]
    simp

/-- Round trip of the character-level array codec on quote-free items. -/
theorem parseArr_encodeArr (l : List (List Char))
    (h : ∀ x ∈ l, '"' ∉ x) :
    parseArrChars (encodeArrChars l) = some l := by
  cases l with
  | nil => decide
  | cons s rest =>
    simp only [encodeArrChars, parseArrChars]
    rw [show jrun .first [] [] ('"' :: (s ++ '"' :: encRest rest)) =
      jrun .str [] [] (s ++ '"' :: encRest rest) from by simp [jrun]]
    rw [jrun_str_append s [] [] (encRest rest)
      (h s (List.mem_cons_self s rest))]
    simp only [List.nil_append]
    rw [jrun_sep_encRest rest [s] fun x hx => h x (List.mem_cons_of_mem s hx)]
    simp

/-- A `jsonSafe` string contains no quote character. -/
theorem jsonSafe_no_quote {x : String} (h : jsonSafe x = true) :
    '"' ∉ x.data := by
  intro hc
  have h2 := (List.all_eq_true.mp h) '"' hc
  simp at h2

/-- Round trip of the badge-ledger codec on `jsonSafe` entries. -/
theorem parseBadges_encodeBadges (l : List String)
    (h : ∀ x ∈ l, jsonSafe x = true) :
    parseBadges (encodeBadges l) = some l := by
  have hq : ∀ x ∈ l.map String.data, '"' ∉ x := by
    intro x hx
    rcases List.mem_map.mp hx with ⟨y, hy, rfl⟩
    exact jsonSafe_no_quote (h y hy)
  simp only [parseBadges, encodeBadges]
  rw [parseArr_encodeArr _ hq]
  simp [map_mk_data]

/-- The encoded ledger text is never the empty string. -/
theorem encodeBadges_ne_empty (l : List String) : encodeBadges l ≠ "" := by
  intro h
  have h1 := congrArg String.data h
  rw [show ("" : String).data = [] from rfl] at h1
  cases l <;> simp [encodeBadges, encodeArrChars] at h1

/-- Setting a solved flag does not disturb the badge ledger. -/
theorem badgesOf_set_solved (st : Store) (id v : String) :
    badgesOf (storeSet st (solvedKey id) v) = badgesOf st := by
  unfold badgesOf
  rw [storeGet_set_ne st (solvedKey id) v badgesKey
    (Ne.symm (solvedKey_ne_badgesKey id))]

/-- Let-free unfolding of `markSolved`. -/
theorem markSolved_def (st : Store) (id : String) :
    markSolved st id =
      match badgesOf (storeSet st (solvedKey id) "1") with
      | none => storeSet st (solvedKey id) "1"
      | some arr =>
        if id ∈ arr then storeSet st (solvedKey id) "1"
        else storeSet (storeSet st (solvedKey id) "1") badgesKey
          (encodeBadges (arr ++ [id])) := rfl

/-- Effect of `markSolved` on the ledger when the persisted ledger is
well formed. -/
theorem badgesOf_markSolved (st : Store) (id : String) (l : List String)
    (hb : badgesOf st = some l) (hl : ∀ x ∈ l, jsonSafe x = true)
    (hid : jsonSafe id = true) :
    badgesOf (markSolved st id) = some (if id ∈ l then l else l ++ [id]) := by
  have hb1 : badgesOf (storeSet st (solvedKey id) "1") = some l := by
    rw [badgesOf_set_solved st id "1", hb]
  rw [markSolved_def]
  simp only [hb1]
  by_cases hm : id ∈ l
  · simp [hm, hb1]
  · simp only [hm, if_false]
    unfold badgesOf
    rw [storeGet_set_self]
    rw [show (match some (encodeBadges (l ++ [id])) with
      | none => some ([] : List String)
      | some raw => if raw = "" then some [] else parseBadges raw) =
      (if encodeBadges (l ++ [id]) = "" then some []
       else parseBadges (encodeBadges (l ++ [id]))) from rfl]
    rw [if_neg (encodeBadges_ne_empty (l ++ [id]))]
    rw [parseBadges_encodeBadges (l ++ [id]) ?safe]
    case safe =>
      intro x hx
      rcases List.mem_append.mp hx with h | h
      · exact hl x h
      · rw [List.mem_singleton.mp h]
        exact hid

/-- The solved flag reads back `"1"` after `markSolved`. -/
theorem storeGet_markSolved_self (st : Store) (id : String) :
    storeGet (markSolved st id) (solvedKey id) = some "1" := by
  rw [markSolved_def]
  cases hb : badgesOf (storeSet st (solvedKey id) "1") with
  | none =>
    simp only [hb]
    rw [storeGet_set_self]
  | some arr =>
    simp only [hb]
    by_cases hm : id ∈ arr
    · simp only [hm, if_true]
      rw [storeGet_set_self]
    · simp only [hm, if_false]
      rw [storeGet_set_ne _ badgesKey _ (solvedKey id)
        (solvedKey_ne_badgesKey id), storeGet_set_self]

/-- `isSolved` holds right after `markSolved`. -/
theorem isSolved_markSolved_self (st : Store) (id : String) :
    isSolved (markSolved st id) id = true := by
  simp [isSolved, storeGet_markSolved_self]

/-- `markSolved` is idempotent on stores with a well-formed ledger. -/
theorem markSolved_idem (st : Store) (id : String) (l : List String)
    (hb : badgesOf st = some l) (hl : ∀ x ∈ l, jsonSafe x = true)
    (hid : jsonSafe id = true) :
    markSolved (markSolved st id) id = markSolved st id := by
  have hb2 := badgesOf_markSolved st id l hb hl hid
  conv_lhs => rw [markSolved_def]
  rw [storeSet_of_get_eq _ _ _ (storeGet_markSolved_self st id)]
  simp only [hb2]
  by_cases hm : id ∈ l <;> simp [hm]

/-- `markSolved` only touches the solved flag and the ledger. -/
theorem storeGet_markSolved_other (st : Store) (id q : String)
    (h1 : q ≠ solvedKey id) (h2 : q ≠ badgesKey) :
    storeGet (markSolved st id) q = storeGet st q := by
  rw [markSolved_def]
  cases hb : badgesOf (storeSet st (solvedKey id) "1") with
  | none =>
    simp only [hb]
    rw [storeGet_set_ne _ _ _ _ h1]
  | some arr =>
    simp only [hb]
    by_cases hm : id ∈ arr
    · simp only [hm, if_true]
      rw [storeGet_set_ne _ _ _ _ h1]
    · simp only [hm, if_false]
      rw [storeGet_set_ne _ _ _ _ h2, storeGet_set_ne _ _ _ _ h1]

/-- A solved puzzle stays solved across any `markSolved`. -/
theorem isSolved_markSolved_mono (st : Store) (id q : String)
    (h : isSolved st q = true) : isSolved (markSolved st id) q = true := by
  by_cases he : q = id
  · subst he
    exact isSolved_markSolved_self st q
  · unfold isSolved at h ⊢
    rw [storeGet_markSolved_other st id (solvedKey q)
      (fun hk => he (solvedKey_inj hk)) (solvedKey_ne_badgesKey q)]
    exact h

/-- Reading back a freshly set hint-usage entry. -/
theorem lookupUsage_setUsage_self (m : HintUsage) (id : String) (v : Nat) :
    lookupUsage (setUsage m id v) id = v := by
  induction m with
  | nil => simp [setUsage, lookupUsage, List.lookup]
  | cons kv rest ih =>
    obtain ⟨k1, x1⟩ := kv
    by_cases h : k1 = id
    · subst h
      simp [setUsage, lookupUsage, List.lookup]
    · have hb : (id == k1) = false := beq_eq_false_iff_ne.mpr (Ne.symm h)
      simpa [setUsage, lookupUsage, List.lookup, h, hb] using ih

/-- Other entries are untouched by a hint-usage update. -/
theorem lookupUsage_setUsage_ne (m : HintUsage) (id : String) (v : Nat)
    (q : String) (h : q ≠ id) :
    lookupUsage (setUsage m id v) q = lookupUsage m q := by
  have hqid : (q == id) = false := beq_eq_false_iff_ne.mpr h
  induction m with
  | nil => simp [setUsage, lookupUsage, List.lookup, hqid]
  | cons kv rest ih =>
    obtain ⟨k1, x1⟩ := kv
    by_cases h1 : k1 = id
    · subst h1
      simp [setUsage, lookupUsage, List.lookup, hqid]
    · by_cases h2 : q = k1
      · subst h2
        simp [setUsage, lookupUsage, List.lookup, h1]
      · have hqk : (q == k1) = false := beq_eq_false_iff_ne.mpr h2
        simpa [setUsage, lookupUsage, List.lookup, h1, hqk] using ih

/-- `confirmUnlockHint` never lowers any usage entry. -/
theorem lookupUsage_confirmUnlock_mono (m : HintUsage) (id : String)
    (tier : Nat) (q : String) :
    lookupUsage m q ≤ lookupUsage (confirmUnlock m id tier) q := by
  unfold confirmUnlock
  by_cases h : q = id
  · subst h
    rw [lookupUsage_setUsage_self]
    exact Nat.le_max_left _ _
  · rw [lookupUsage_setUsage_ne _ _ _ _ h]

/-- `revealHint` never lowers any usage entry. -/
theorem lookupUsage_revealHint_mono (sel : Option Puzzle) (m : HintUsage)
    (level : Nat) (q : String) :
    lookupUsage m q ≤ lookupUsage (revealHint sel m level) q := by
  cases sel with
  | none => simp [revealHint]
  | some p =>
    simp only [revealHint]
    by_cases hg :
        (decide (level < 1) || decide ((getHints p.id).length < level)) = true
    · rw [if_pos hg]
    · rw [if_neg hg]
      by_cases h : q = p.id
      · subst h
        rw [lookupUsage_setUsage_self]
        exact Nat.le_max_left _ _
      · rw [lookupUsage_setUsage_ne _ _ _ _ h]

/-- Solved flags survive `checkSolution`, whatever its outcome. -/
theorem checkSolution_isSolved_mono (st : Store) (id attempt q : String)
    (h : isSolved st q = true) :
    isSolved (checkSolution st id attempt).2 q = true := by
  unfold checkSolution
  cases hfp : findPuzzle id with
  | none => simpa using h
  | some p =>
    have hp : p ∈ puzzles := List.mem_of_find?_eq_some hfp
    simp only [puzzles, List.mem_cons, List.mem_singleton,
      List.not_mem_nil, or_false] at hp
    rcases hp with rfl | rfl | rfl | rfl <;>
    · simp only [apply_ite Prod.snd]
      simp
      split
      · exact isSolved_markSolved_mono _ _ _ h
      · first
        | exact h
        | (split
           · split
             · rename_i hpair
               refine isSolved_markSolved_mono _ _ _ ?keep
               unfold isSolved at h ⊢
               rw [storeGet_set_ne _ _ _ _
                 (Ne.symm (kv_key_ne_solvedKey q hpair))]
               exact h
             · exact h
           · exact h)

/-- The scan command's fixed checker call always matches. -/
theorem checkSolution_scan_fixed (st : Store) :
    checkSolution st "scanPuzzle" "ACCESS_GRANTED" =
      ({ ok := true, message := "✅ Access Granted" },
        markSolved st "scanPuzzle") := rfl

/-- The probe command's fixed checker call always matches. -/
theorem checkSolution_probe_fixed (st : Store) :
    checkSolution st "probePuzzle" "ROOT_SIGNAL_FOUND" =
      ({ ok := true, message := "✅ Access Granted" },
        markSolved st "probePuzzle") := rfl

/-- The awakening command's fixed checker call always matches. -/
theorem checkSolution_neo_fixed (st : Store) :
    checkSolution st "neoEaster" "THERE_IS_NO_SPOON" =
      ({ ok := true, message := "✅ Access Granted" },
        markSolved st "neoEaster") := rfl

/-- Reduction of the handler on the `probe` line. -/
theorem handleCommand_probe_eq (st : Store) (log : List String) (now : Nat) :
    handleCommand st log "probe" now =
      (if !isSolved st "scanPuzzle" then
        .ok { store := st, lines := log ++ ["⚠️ Run \x27scan\x27 first."],
              events := [], solvedCalls := [], triggerCalls := [],
              checkerCalls := [] }
      else if isSolved st "probePuzzle" then
        .ok { store := st,
              lines := log ++ ["🧩 Data probe already complete."],
              events := [], solvedCalls := [], triggerCalls := [],
              checkerCalls := [] }
      else
        .ok { store := markSolved (markSolved st "probePuzzle") "probePuzzle",
              lines := log ++ ["Initiating deep data probe...",
                "Found residual echo: ROOT_SIGNAL_FOUND",
                "✅ Signal reconstruction successful."],
              events := [{ command := "probe", timestamp := now }],
              solvedCalls := ["probePuzzle"], triggerCalls := ["probePuzzle"],
              checkerCalls := [("probePuzzle", "ROOT_SIGNAL_FOUND")] }) := by
  simp only [handleCommand]
  rw [show jsToLower (argN (jsSplit ' ' "probe") 0) = "probe" from rfl]
  simp [checkSolution_probe_fixed]

/-- Reduction of the handler on the `awakening` line. -/
theorem handleCommand_awakening_eq (st : Store) (log : List String)
    (now : Nat) :
    handleCommand st log "awakening" now =
      (if !isSolved st "probePuzzle" || !isSolved st "localKeyPuzzle" then
        .ok { store := st,
              lines := log ++ ["⚠️ System not ready. Complete prior sequences."],
              events := [], solvedCalls := [], triggerCalls := [],
              checkerCalls := [] }
      else if isSolved st "neoEaster" then
        .ok { store := st,
              lines := log ++ ["🧠 You\x27ve already awakened, The One."],
              events := [], solvedCalls := [], triggerCalls := [],
              checkerCalls := [] }
      else
        .ok { store := markSolved (markSolved st "neoEaster") "neoEaster",
              lines := log ++ ["⚡ Initiating awakening protocol...",
                "Transcending local space...",
                "🧠 You are The One. Reality bends to your will."],
              events := [{ command := "awakening", timestamp := now }],
              solvedCalls := ["neoEaster"], triggerCalls := ["neoEaster"],
              checkerCalls := [("neoEaster", "THERE_IS_NO_SPOON")] }) := by
  simp only [handleCommand]
  rw [show jsToLower (argN (jsSplit ' ' "awakening") 0) = "awakening"
    from rfl]
  simp [checkSolution_neo_fixed]

/-- Reduction of the handler on the `badge list` line. -/
theorem handleCommand_badgelist_eq (st : Store) (log : List String)
    (now : Nat) :
    handleCommand st log "badge list" now =
      (match parseBadges (if (storeGet st badgesKey).getD "" = "" then "[]"
          else (storeGet st badgesKey).getD "") with
      | none => .error "SyntaxError: JSON.parse"
      | some badges =>
        .ok { store := st,
              lines := log ++ [if badges.isEmpty then "No badges yet."
                else joinSep ", " badges],
              events := [{ command := "badge list", timestamp := now }],
              solvedCalls := [], triggerCalls := [], checkerCalls := [] }) := by
  simp only [handleCommand]
  rw [show jsToLower (argN (jsSplit ' ' "badge list") 0) = "badge" from rfl]
  rw [show argN (jsSplit ' ' "badge list") 1 = "list" from rfl]
  simp

/-- A tick after cancellation changes neither the usage map nor the
closed modal. -/
theorem adTick_cancelled (s : AdState) (h : s.modalShow = false) :
    (adTick s).usage = s.usage ∧ (adTick s).modalShow = false := by
  unfold adTick
  by_cases ht : s.timerActive = false
  · simp [ht, h]
  · simp [ht, h]

/-- No number of pending ticks changes the usage map once the modal is
closed. -/
theorem ticks_cancelled (n : Nat) (s : AdState) (h : s.modalShow = false) :
    (ticks n s).usage = s.usage ∧ (ticks n s).modalShow = false := by
  induction n generalizing s with
  | zero => exact ⟨rfl, h⟩
  | succ n ih =>
    have h1 := adTick_cancelled s h
    have h2 := ih (adTick s) h1.2
    exact ⟨h2.1.trans h1.1, h2.2⟩

/-- Up to four ticks into a timed ritual, nothing is granted and the
modal is still open. -/
theorem ticks_adStart (sel : Option String) (tier : Nat) (u : HintUsage)
    (k : Nat) (hk : k ≤ 4) :
    (ticks k (adStart sel tier u)).usage = u ∧
      (ticks k (adStart sel tier u)).modalShow = true := by
  interval_cases k <;>
    simp [ticks, adTick, adStart]

/-- A single engine operation never lowers a hint-usage entry. -/
theorem applyOp_usage_mono (s : EngineState) (op : EngineOp) (q : String) :
    lookupUsage s.usage q ≤ lookupUsage (applyOp s op).usage q := by
  cases op with
  | reveal pid level => exact lookupUsage_revealHint_mono _ _ _ _
  | unlock pid tier => exact lookupUsage_confirmUnlock_mono _ _ _ _
  | mark id => exact Nat.le_refl _
  | check id attempt => exact Nat.le_refl _

/-- A single engine operation never clears a solved flag. -/
theorem applyOp_solved_mono (s : EngineState) (op : EngineOp) (q : String)
    (h : isSolved s.store q = true) :
    isSolved (applyOp s op).store q = true := by
  cases op with
  | reveal pid level => exact h
  | unlock pid tier => exact h
  | mark id => exact isSolved_markSolved_mono _ _ _ h
  | check id attempt => exact checkSolution_isSolved_mono _ _ _ _ h

/-! ### Claim theorems -/

/-- C1 (counterexample): for the stored-key-value puzzle with solution
`DECRYPTED_KEY=TRUE`, submitting exactly that attempt is accepted, yet
the store does NOT receive the key `DECRYPTED_KEY` — the exact match
takes the plain path, which performs no key-value write, contradicting
the claim's "writes the mapping KEY → VAL into the persistent store". -/
theorem C1_counterexample :
    (checkSolution [] "localKeyPuzzle" "DECRYPTED_KEY=TRUE").1.ok = true ∧
    storeGet (checkSolution [] "localKeyPuzzle" "DECRYPTED_KEY=TRUE").2
      "DECRYPTED_KEY" = none := by decide

/-- C1 (amended): an attempt equal to the listed solution is accepted
through the plain-match path with the plain success message, marks the
puzzle solved and leaves the player-visible key untouched; the
key→value store write happens only when the reconstructed trimmed pair
matches without an exact match (for example with surrounding spaces),
and the two success messages are distinct. -/
theorem C1_theorem (st : Store) :
    checkSolution st "localKeyPuzzle" "DECRYPTED_KEY=TRUE" =
      ({ ok := true, message := "✅ Access Granted" },
        markSolved st "localKeyPuzzle") ∧
    storeGet (checkSolution st "localKeyPuzzle" "DECRYPTED_KEY=TRUE").2
      "DECRYPTED_KEY" = storeGet st "DECRYPTED_KEY" ∧
    isSolved (checkSolution st "localKeyPuzzle" "DECRYPTED_KEY=TRUE").2
      "localKeyPuzzle" = true ∧
    (checkSolution st "localKeyPuzzle" " DECRYPTED_KEY = TRUE ").1 =
      { ok := true, message := "🗝️ Correct — key stored in memory!" } ∧
    storeGet (checkSolution st "localKeyPuzzle" " DECRYPTED_KEY = TRUE ").2
      "DECRYPTED_KEY" = some "TRUE" ∧
    ("✅ Access Granted" : String) ≠ "🗝️ Correct — key stored in memory!" := by
  refine ⟨rfl, ?g2, ?g3, rfl, ?g5, by decide⟩
  case g2 =>
    rw [show (checkSolution st "localKeyPuzzle" "DECRYPTED_KEY=TRUE").2 =
      markSolved st "localKeyPuzzle" from rfl]
    exact storeGet_markSolved_other st _ _ (by decide) (by decide)
  case g3 =>
    rw [show (checkSolution st "localKeyPuzzle" "DECRYPTED_KEY=TRUE").2 =
      markSolved st "localKeyPuzzle" from rfl]
    exact isSolved_markSolved_self st _
  case g5 =>
    rw [show (checkSolution st "localKeyPuzzle" " DECRYPTED_KEY = TRUE ").2 =
      markSolved (storeSet st "DECRYPTED_KEY" "TRUE") "localKeyPuzzle"
      from rfl]
    rw [storeGet_markSolved_other _ _ _ (by decide) (by decide)]
    exact storeGet_set_self st _ _

/-- C2 (counterexample): with usage 0 on `scanPuzzle`, requesting
tier 2 is NOT a no-op — `revealHint` jumps the usage straight to 2,
contradicting the claimed `current + 1` sequencing. -/
theorem C2_counterexample :
    lookupUsage [] "scanPuzzle" = 0 ∧
    lookupUsage (revealHint (findPuzzle "scanPuzzle") [] 2) "scanPuzzle" = 2 ∧
    revealHint (findPuzzle "scanPuzzle") [] 2 ≠ [] := by decide

/-- C2 (amended): a hint-reveal request for tier T succeeds whenever
`1 ≤ T ≤ number of hints`, raising the usage to `max(current, T)`
(so requesting tier 1 then tier 2 succeeds both times, and requesting
an already-unlocked tier changes nothing); only out-of-range requests
(T = 0 or T beyond the hint count) are no-ops. -/
theorem C2_theorem (p : Puzzle) (usage : HintUsage) (level : Nat) :
    (1 ≤ level → level ≤ (getHints p.id).length →
      lookupUsage (revealHint (some p) usage level) p.id =
        max (lookupUsage usage p.id) level) ∧
    (level = 0 → revealHint (some p) usage level = usage) ∧
    ((getHints p.id).length < level →
      revealHint (some p) usage level = usage) := by
  refine ⟨?inRange, ?zero, ?past⟩
  case inRange =>
    intro h1 h2
    have hg : (decide (level < 1) ||
        decide ((getHints p.id).length < level)) = false := by
      simp only [Bool.or_eq_false_iff, decide_eq_false_iff_not, Nat.not_lt]
      omega
    simp only [revealHint, hg]
    rw [if_neg (by simp)]
    exact lookupUsage_setUsage_self usage p.id _
  case zero =>
    intro h
    subst h
    simp [revealHint]
  case past =>
    intro h
    simp [revealHint, h]

/-- C2 (witness): a tier-1 request on a fresh usage map lands at the
expected maximum. -/
theorem C2_witness :
    lookupUsage (revealHint (some
      { id := "scanPuzzle", type := .terminal, difficulty := .easy,
        solutions := ["ACCESS_GRANTED"], lower := false,
        hints := [lockedHint, lockedHint], dependsOn := [],
        hidden := false }) [] 1) "scanPuzzle" =
      max (lookupUsage [] "scanPuzzle") 1 :=
  (C2_theorem
    { id := "scanPuzzle", type := .terminal, difficulty := .easy,
      solutions := ["ACCESS_GRANTED"], lower := false,
      hints := [lockedHint, lockedHint], dependsOn := [],
      hidden := false } [] 1).1 (by decide) (by decide)

/-- C3 (counterexample): a `scan` submitted while `scanPuzzle` is
already solved returns early and dispatches NO `terminal-command`
event, contradicting the claimed "exactly one event per submitted
line, regardless". -/
theorem C3_counterexample :
    (handleCommand [(solvedKey "scanPuzzle", "1")] [] "scan" 42).map
      TermResult.events = .ok [] := by decide

set_option maxRecDepth 4096 in
/-- C3 (amended): when the handler completes normally it dispatches
exactly one event carrying the raw command and the timestamp — except
on the early-return paths (an already-solved `scan`, a gated or
already-solved `probe` or `awakening`), which dispatch none; the
`badge list` parse failure throws and dispatches none. -/
theorem C3_theorem (st : Store) (log : List String) (command : String)
    (now : Nat) (r : TermResult)
    (h : handleCommand st log command now = .ok r) :
    r.events = (if earlyReturn st command then []
      else [{ command := command, timestamp := now }]) := by
  simp only [handleCommand] at h
  simp only [earlyReturn]
  repeat' split at h
  all_goals
    first
    | (injection h with h
       subst h
       simp_all)
    | exact absurd h (by simp)

set_option maxRecDepth 8192 in
/-- C3 (witness): a recognized `help` line dispatches exactly the one
event with its text and timestamp. -/
theorem C3_witness :
    ({ store := [], lines := [helpText],
       events := [{ command := "help", timestamp := 7 }],
       solvedCalls := [], triggerCalls := [],
       checkerCalls := [] } : TermResult).events =
      (if earlyReturn [] "help" then []
       else [{ command := "help", timestamp := 7 }]) :=
  C3_theorem [] [] "help" 7 _ (by decide)

/-- C4 (confirmed): cancelling a timed unlock ritual before its
countdown expires prevents any grant: however many interval callbacks
still fire afterwards, the hint-usage map is exactly what it was when
the ritual started. -/
theorem C4_theorem (sel : Option String) (tier : Nat) (u : HintUsage)
    (k n : Nat) (hk : k ≤ 4) :
    (ticks n (adCancel (ticks k (adStart sel tier u)))).usage = u := by
  have h1 := ticks_adStart sel tier u k hk
  have h2 : (adCancel (ticks k (adStart sel tier u))).modalShow = false := rfl
  have h3 : (adCancel (ticks k (adStart sel tier u))).usage =
      (ticks k (adStart sel tier u)).usage := rfl
  have h4 := ticks_cancelled n _ h2
  rw [h4.1, h3, h1.1]

/-- C4 (witness): three ticks, a cancellation, then ten more pending
ticks leave a fresh usage map untouched. -/
theorem C4_witness :
    (ticks 10 (adCancel (ticks 3 (adStart (some "scanPuzzle") 1 [])))).usage
      = [] :=
  C4_theorem (some "scanPuzzle") 1 [] 3 10 (by decide)

/-- C5 (counterexample): on a fresh store nothing is solved — in
particular not every non-hidden puzzle — yet the reveal flag has
already fired, because the reveal effect's first run evaluates the
initial empty `solvedState`, whose every-value check is vacuously
true; with the flag set, the listing shows every puzzle, hidden
`neoEaster` included.  So the reveal does not fire "exactly when every
non-hidden puzzle is solved", and a hidden puzzle is listed before
anything is solved. -/
theorem C5_counterexample :
    ((getPuzzles false).all fun p => isSolved [] p.id) = false ∧
    showHiddenAfterMount [] = true ∧
    (getPuzzles true).filter
      (visibleFilter (showHiddenAfterMount []) (initialSolvedMap [])) =
      getPuzzles true := by decide

/-- C5 (amended): the listing filter is exactly "not hidden, or the
reveal flag fired, or all dependencies solved", and a puzzle with no
dependencies passes it unconditionally.  But the reveal effect also
runs at mount over the initial empty `solvedState`, where the
all-values check is vacuously true, so the flag is set unconditionally
at mount and never cleared: after mount it is true over every store,
and every puzzle — hidden or not — passes the filter.  (The effect's
re-run over the loaded map tests all tracked puzzles, hidden ones
included, and a successful panel solve also sets the flag; both are
redundant after the mount-time firing.) -/
theorem C5_theorem (sh : Bool) (m : SolvedMap) (p : Puzzle) (st : Store) :
    (visibleFilter sh m p = true ↔
      (p.hidden = false ∨ sh = true ∨
        ∀ d ∈ p.dependsOn, lookupSolved m d = true)) ∧
    (p.dependsOn = [] → visibleFilter sh m p = true) ∧
    computeAllSolved [] = true ∧
    (∀ st2 : Store, showHiddenAfterMount st2 = true) ∧
    (∀ m2 : SolvedMap, visibleFilter true m2 p = true) ∧
    (computeAllSolved (initialSolvedMap st) = true ↔
      ∀ q ∈ getPuzzles true, isSolved st q.id = true) ∧
    (∀ (m2 : SolvedMap) (sh2 : Bool) (sel : Puzzle) (att : String),
      (trySolve st m2 sh2 sel att).1.ok = true →
        (trySolve st m2 sh2 sel att).2.2.2 = true) := by
  refine ⟨?filter, ?nodeps, by decide, ?mount, ?always, ?reload, ?solve⟩
  case filter =>
    cases hp : p.hidden <;> cases hsh : sh <;>
      simp [visibleFilter, hp, hsh, List.all_eq_true]
  case nodeps =>
    intro hd
    cases hp : p.hidden <;> cases hsh : sh <;>
      simp [visibleFilter, hp, hsh, hd]
  case mount =>
    intro st2
    simp [showHiddenAfterMount, revealEffectStep]
    exact Or.inr (by decide)
  case always =>
    intro m2
    cases hp : p.hidden <;> simp [visibleFilter, hp]
  case reload =>
    simp [computeAllSolved, initialSolvedMap, List.all_eq_true]
  case solve =>
    intro m2 sh2 sel att
    simp only [trySolve]
    split
    · intro _
      rfl
    · rename_i hno
      intro hyes
      exact absurd hyes hno

/-- C5 (witness): after mount the flag is set even over a store with a
single unrelated solve, and with the flag set the hidden `neoEaster`
passes the listing filter on an empty solved map. -/
theorem C5_witness :
    showHiddenAfterMount [(solvedKey "scanPuzzle", "1")] = true ∧
    visibleFilter true []
      { id := "neoEaster", type := .terminal, difficulty := .secret,
        solutions := ["THERE_IS_NO_SPOON"], lower := false,
        hints := [lockedHint, lockedHint],
        dependsOn := ["probePuzzle", "localKeyPuzzle"],
        hidden := true } = true :=
  ⟨(C5_theorem false []
      { id := "neoEaster", type := .terminal, difficulty := .secret,
        solutions := ["THERE_IS_NO_SPOON"], lower := false,
        hints := [lockedHint, lockedHint],
        dependsOn := ["probePuzzle", "localKeyPuzzle"],
        hidden := true } []).2.2.2.1 [(solvedKey "scanPuzzle", "1")],
   (C5_theorem false []
      { id := "neoEaster", type := .terminal, difficulty := .secret,
        solutions := ["THERE_IS_NO_SPOON"], lower := false,
        hints := [lockedHint, lockedHint],
        dependsOn := ["probePuzzle", "localKeyPuzzle"],
        hidden := true } []).2.2.2.2.1 []⟩

/-- C6 (confirmed): the two dependency-gated commands behave as
claimed: run before their prerequisites they print a warning and touch
nothing; run when their own puzzle is solved they print an
already-done notice and touch nothing; run when eligible they invoke
the checker with the command's fixed phrase, mark the puzzle solved
and notify the `onSolved`/`onPuzzleTrigger` listeners. -/
theorem C6_theorem (st : Store) (log : List String) (now : Nat) :
    (isSolved st "scanPuzzle" = false →
      handleCommand st log "probe" now =
        .ok { store := st, lines := log ++ ["⚠️ Run \x27scan\x27 first."],
              events := [], solvedCalls := [], triggerCalls := [],
              checkerCalls := [] }) ∧
    (isSolved st "scanPuzzle" = true → isSolved st "probePuzzle" = true →
      handleCommand st log "probe" now =
        .ok { store := st,
              lines := log ++ ["🧩 Data probe already complete."],
              events := [], solvedCalls := [], triggerCalls := [],
              checkerCalls := [] }) ∧
    (isSolved st "scanPuzzle" = true → isSolved st "probePuzzle" = false →
      handleCommand st log "probe" now =
        .ok { store := markSolved (markSolved st "probePuzzle") "probePuzzle",
              lines := log ++ ["Initiating deep data probe...",
                "Found residual echo: ROOT_SIGNAL_FOUND",
                "✅ Signal reconstruction successful."],
              events := [{ command := "probe", timestamp := now }],
              solvedCalls := ["probePuzzle"],
              triggerCalls := ["probePuzzle"],
              checkerCalls := [("probePuzzle", "ROOT_SIGNAL_FOUND")] } ∧
        isSolved (markSolved (markSolved st "probePuzzle") "probePuzzle")
          "probePuzzle" = true) ∧
    (isSolved st "probePuzzle" = false ∨ isSolved st "localKeyPuzzle" = false →
      handleCommand st log "awakening" now =
        .ok { store := st,
              lines := log ++
                ["⚠️ System not ready. Complete prior sequences."],
              events := [], solvedCalls := [], triggerCalls := [],
              checkerCalls := [] }) ∧
    (isSolved st "probePuzzle" = true → isSolved st "localKeyPuzzle" = true →
      isSolved st "neoEaster" = true →
      handleCommand st log "awakening" now =
        .ok { store := st,
              lines := log ++ ["🧠 You\x27ve already awakened, The One."],
              events := [], solvedCalls := [], triggerCalls := [],
              checkerCalls := [] }) ∧
    (isSolved st "probePuzzle" = true → isSolved st "localKeyPuzzle" = true →
      isSolved st "neoEaster" = false →
      handleCommand st log "awakening" now =
        .ok { store := markSolved (markSolved st "neoEaster") "neoEaster",
              lines := log ++ ["⚡ Initiating awakening protocol...",
                "Transcending local space...",
                "🧠 You are The One. Reality bends to your will."],
              events := [{ command := "awakening", timestamp := now }],
              solvedCalls := ["neoEaster"], triggerCalls := ["neoEaster"],
              checkerCalls := [("neoEaster", "THERE_IS_NO_SPOON")] } ∧
        isSolved (markSolved (markSolved st "neoEaster") "neoEaster")
          "neoEaster" = true) := by
  refine ⟨?p1, ?p2, ?p3, ?a1, ?a2, ?a3⟩
  case p1 =>
    intro h
    rw [handleCommand_probe_eq]
    simp [h]
  case p2 =>
    intro h1 h2
    rw [handleCommand_probe_eq]
    simp [h1, h2]
  case p3 =>
    intro h1 h2
    rw [handleCommand_probe_eq]
    simp [h1, h2, isSolved_markSolved_self]
  case a1 =>
    intro h
    rw [handleCommand_awakening_eq]
    rcases h with h | h <;> simp [h]
  case a2 =>
    intro h1 h2 h3
    rw [handleCommand_awakening_eq]
    simp [h1, h2, h3]
  case a3 =>
    intro h1 h2 h3
    rw [handleCommand_awakening_eq]
    simp [h1, h2, h3, isSolved_markSolved_self]

/-- C6 (witness): on an empty store, `probe` is gated and leaves the
store untouched. -/
theorem C6_witness :
    handleCommand [] [] "probe" 0 =
      .ok { store := [], lines := ["⚠️ Run \x27scan\x27 first."],
            events := [], solvedCalls := [], triggerCalls := [],
            checkerCalls := [] } :=
  (C6_theorem [] [] 0).1 (by decide)

/-- C7 (confirmed): on a store whose ledger is well formed, marking the
same puzzle solved N ≥ 1 times produces exactly the store of a single
call, and the resulting ledger holds the puzzle's entry exactly once
with no duplicates. -/
theorem C7_theorem (st : Store) (id : String) (l : List String) (n : Nat)
    (hb : badgesOf st = some l) (hl : ∀ x ∈ l, jsonSafe x = true)
    (hid : jsonSafe id = true) (hnd : l.Nodup) (hn : 1 ≤ n) :
    markSolvedN st id n = markSolved st id ∧
    badgesOf (markSolved st id) = some (if id ∈ l then l else l ++ [id]) ∧
    (if id ∈ l then l else l ++ [id]).count id = 1 ∧
    (if id ∈ l then l else l ++ [id]).Nodup := by
  refine ⟨?iter, badgesOf_markSolved st id l hb hl hid, ?count, ?nodup⟩
  case iter =>
    cases n with
    | zero => omega
    | succ m =>
      clear hn
      induction m with
      | zero => rfl
      | succ m ih =>
        show markSolved (markSolvedN st id (m + 1)) id = markSolved st id
        rw [ih, markSolved_idem st id l hb hl hid]
  case count =>
    by_cases hm : id ∈ l
    · simp [hm, List.count_eq_one_of_mem hnd hm]
    · simp [hm, List.count_eq_zero_of_not_mem hm]
  case nodup =>
    by_cases hm : id ∈ l
    · simpa [hm] using hnd
    · simp [hm, List.nodup_append, hnd, List.disjoint_singleton]

/-- C7 (witness): two calls on the empty store equal one call, and the
ledger ends up with a single entry. -/
theorem C7_witness :
    markSolvedN [] "scanPuzzle" 2 = markSolved [] "scanPuzzle" ∧
    badgesOf (markSolved [] "scanPuzzle") =
      some (if "scanPuzzle" ∈ ([] : List String) then []
        else [] ++ ["scanPuzzle"]) ∧
    (if "scanPuzzle" ∈ ([] : List String) then []
      else [] ++ ["scanPuzzle"]).count "scanPuzzle" = 1 ∧
    (if "scanPuzzle" ∈ ([] : List String) then []
      else [] ++ ["scanPuzzle"]).Nodup :=
  C7_theorem [] "scanPuzzle" [] 2 (by decide) (by simp) (by decide)
    List.nodup_nil (by decide)

/-- C8 (confirmed): over any sequence of engine operations — hint
reveals, modal unlock confirmations, mark-solved calls and solution
checks — no puzzle's hint usage ever decreases and no solved flag ever
reverts to unsolved. -/
theorem C8_theorem (ops : List EngineOp) (s : EngineState) (q : String) :
    lookupUsage s.usage q ≤ lookupUsage (applyOps s ops).usage q ∧
    (isSolved s.store q = true →
      isSolved (applyOps s ops).store q = true) := by
  induction ops generalizing s with
  | nil => exact ⟨Nat.le_refl _, fun h => h⟩
  | cons op rest ih =>
    have h1 := applyOp_usage_mono s op q
    have h3 := ih (applyOp s op)
    exact ⟨Nat.le_trans h1 h3.1,
      fun h => h3.2 (applyOp_solved_mono s op q h)⟩

/-- C8 (witness): an unrelated mark-solved call leaves an already-set
solved flag set. -/
theorem C8_witness :
    isSolved (applyOps
      { store := [(solvedKey "probePuzzle", "1")], usage := [] }
      [EngineOp.mark "scanPuzzle", EngineOp.check "localKeyPuzzle"
        " DECRYPTED_KEY = TRUE "]).store "probePuzzle" = true :=
  (C8_theorem [EngineOp.mark "scanPuzzle", EngineOp.check "localKeyPuzzle"
      " DECRYPTED_KEY = TRUE "]
    { store := [(solvedKey "probePuzzle", "1")], usage := [] }
    "probePuzzle").2 (by decide)

/-- C9 (counterexample): a malformed badge ledger makes the terminal's
`badge list` command throw — the parse failure propagates instead of
being treated as an empty ledger. -/
theorem C9_counterexample :
    handleCommand [(badgesKey, "\x7bbad")] [] "badge list" 0 =
      .error "SyntaxError: JSON.parse" := by decide

/-- C9 (amended): the guarded reads behave as claimed — a malformed
hint-usage map reads as empty and a malformed ledger makes
`markSolved` silently skip the badge append after setting the solved
flag — but the terminal's `badge list` read is unguarded: a malformed
non-empty ledger value makes the command throw. -/
theorem C9_theorem :
    (∀ (st : Store) (raw : String), storeGet st hintUsageKey = some raw →
      parseHintObj raw = none → readHintUsage st = []) ∧
    (∀ (st : Store) (id : String), badgesOf st = none →
      markSolved st id = storeSet st (solvedKey id) "1") ∧
    (∀ (st : Store) (log : List String) (now : Nat) (raw : String),
      storeGet st badgesKey = some raw → raw ≠ "" →
      parseBadges raw = none →
      handleCommand st log "badge list" now =
        .error "SyntaxError: JSON.parse") := by
  refine ⟨?usage, ?mark, ?badge⟩
  case usage =>
    intro st raw h1 h2
    simp [readHintUsage, h1, h2]
  case mark =>
    intro st id h
    rw [markSolved_def]
    have hb : badgesOf (storeSet st (solvedKey id) "1") = none := by
      rw [badgesOf_set_solved]
      exact h
    simp [hb]
  case badge =>
    intro st log now raw h1 h2 h3
    rw [handleCommand_badgelist_eq, h1]
    simp [h2, h3]

/-- C9 (witness): a concrete non-JSON ledger value makes `badge list`
throw while `markSolved` still sets the flag and skips the append. -/
theorem C9_witness :
    handleCommand [(badgesKey, "xyz")] [] "badge list" 0 =
      .error "SyntaxError: JSON.parse" :=
  (C9_theorem).2.2 [(badgesKey, "xyz")] [] 0 "xyz" (by decide) (by decide)
    (by decide)

/-- C10 (confirmed): the stored-key-value branch splits the attempt at
every `=`, keeps only the first two segments, trims each, and compares
the rejoined pair: both a whitespace-padded attempt and an attempt
with a trailing extra `=` segment are accepted with the key-value
message and write `DECRYPTED_KEY → TRUE` into the store, although
neither attempt equals any listed solution. -/
theorem C10_theorem (st : Store) :
    checkSolution st "localKeyPuzzle" " DECRYPTED_KEY = TRUE " =
      ({ ok := true, message := "🗝️ Correct — key stored in memory!" },
        markSolved (storeSet st "DECRYPTED_KEY" "TRUE") "localKeyPuzzle") ∧
    checkSolution st "localKeyPuzzle" "DECRYPTED_KEY=TRUE=extra" =
      ({ ok := true, message := "🗝️ Correct — key stored in memory!" },
        markSolved (storeSet st "DECRYPTED_KEY" "TRUE") "localKeyPuzzle") ∧
    storeGet (checkSolution st "localKeyPuzzle"
      " DECRYPTED_KEY = TRUE ").2 "DECRYPTED_KEY" = some "TRUE" ∧
    ((jsSplit '=' "DECRYPTED_KEY=TRUE=extra").map jsTrim =
      ["DECRYPTED_KEY", "TRUE", "extra"]) ∧
    (∀ p : Puzzle, findPuzzle "localKeyPuzzle" = some p →
      " DECRYPTED_KEY = TRUE " ∉ p.solutions ∧
      "DECRYPTED_KEY=TRUE=extra" ∉ p.solutions) := by
  refine ⟨rfl, rfl, ?get, by decide, ?mem⟩
  case get =>
    rw [show (checkSolution st "localKeyPuzzle" " DECRYPTED_KEY = TRUE ").2 =
      markSolved (storeSet st "DECRYPTED_KEY" "TRUE") "localKeyPuzzle"
      from rfl]
    rw [storeGet_markSolved_other _ _ _ (by decide) (by decide)]
    exact storeGet_set_self st _ _
  case mem =>
    intro p hp
    have hfind : findPuzzle "localKeyPuzzle" = some
        { id := "localKeyPuzzle", type := .localstorage, difficulty := .hard,
          solutions := ["DECRYPTED_KEY=TRUE"], lower := false,
          hints := [lockedHint, lockedHint], dependsOn := [],
          hidden := false } := rfl
    rw [hfind] at hp
    injection hp with hp
    subst hp
    exact ⟨by decide, by decide⟩

/-- C10 (witness): on the empty store the padded attempt writes the
key, and it is itself not a listed solution. -/
theorem C10_witness :
    storeGet (checkSolution [] "localKeyPuzzle" " DECRYPTED_KEY = TRUE ").2
      "DECRYPTED_KEY" = some "TRUE" ∧
    " DECRYPTED_KEY = TRUE " ∉
      ({ id := "localKeyPuzzle", type := .localstorage, difficulty := .hard,
         solutions := ["DECRYPTED_KEY=TRUE"], lower := false,
         hints := [lockedHint, lockedHint], dependsOn := [],
         hidden := false } : Puzzle).solutions :=
  ⟨(C10_theorem []).2.2.1, ((C10_theorem []).2.2.2.2 _ rfl).1⟩

end HackLab
